import Mathlib

/-!
Verification of the silkworm snapshot read path (`silkworm/node/snapshot/snapshot.cpp`)
against its natural-language specification.

The segment layer (`huffman::Decompressor`) and the index layer
(`succinct::RecSplitIndex`) are external modules not contained in the given
sources; they are modelled from the spec (sections 4.1 and 4.2): a segment is a
list of words together with their encoded byte sizes, and an index is a record
of `base_data_id`, an ordinal-to-offset function, an MPH lookup function and a
modification time.  All functions of `snapshot.cpp` are translated statement by
statement; 64-bit unsigned wraparound is made explicit where the C++ code can
underflow (`sub64`, `add64`).
-/

namespace Silkworm

/-- Unsigned 64-bit wraparound subtraction: models C++ `a - b` on `uint64_t`
operands already reduced below `2 ^ 64`. -/
def sub64 (a b : Nat) : Nat := (a + 2 ^ 64 - b % 2 ^ 64) % 2 ^ 64

/-- Unsigned 64-bit wraparound addition: models C++ `a + b` on `uint64_t`. -/
def add64 (a b : Nat) : Nat := (a + b) % 2 ^ 64

/-- The `Snapshot::WordItem` triple: decoded word bytes, a byte offset and the
zero-based word position.  Bytes are modelled as lists of naturals. -/
structure WordItem where
  value : List Nat
  offset : Nat
  position : Nat
  deriving DecidableEq, Repr, Inhabited

/-- Modelled from the spec: a compressed segment file (the Decompressor module
is not part of the given sources).  Each entry is a word value paired with the
number of compressed bytes it occupies, so word starts are the running sums of
the sizes and the word-start-to-word-index mapping is monotonic (spec section 3). -/
structure Segment where
  entries : List (List Nat × Nat)
  deriving Repr

/-- Sum of the encoded sizes of a list of entries. -/
def sizeSum (es : List (List Nat × Nat)) : Nat := (es.map Prod.snd).sum

/-- Total compressed size of the segment; `has_next` compares offsets to it. -/
def totalSize (s : Segment) : Nat := sizeSum s.entries

/-- Byte offset at which word `i` starts: sum of the sizes of words before it. -/
def wordStart (s : Segment) (i : Nat) : Nat := sizeSum (s.entries.take i)

/-- Decode the word starting exactly at `offset`, walking the entries from
running start `b`.  Returns the word value and the offset of the subsequent
word, or `none` when `offset` is not a word start (the decoder raises a format
error there, which `next_item` swallows). -/
def lookupWord : List (List Nat × Nat) → Nat → Nat → Option (List Nat × Nat)
  | [], _, _ => none
  | (v, sz) :: rest, b, offset =>
    if offset = b then some (v, b + sz) else lookupWord rest (b + sz) offset

/-- `Snapshot::next_item`: reset an iterator to `offset`; `none` when
`has_next()` fails (offset at or past the end) or the decode throws (offset not
a word start).  Only `value` and `offset` are filled in; `position` keeps the
zero of the default-constructed `WordItem`. -/
def next_item (s : Segment) (offset : Nat) : Option WordItem :=
  if offset < totalSize s then
    match lookupWord s.entries 0 offset with
    | some (v, nxt) => some ⟨v, nxt, 0⟩
    | none => none
  else
    none

/-- Loop body of `Snapshot::for_each_item`.  `itemOff` is the current value of
the reused `item.offset` field: it starts at 0 and is overwritten with the
next-word offset only after `fn` has returned, exactly as in the source.
`b` is the byte offset at which the current word starts and `pos` the running
word count. -/
def forEachItemAux (fn : WordItem → Bool) :
    List (List Nat × Nat) → Nat → Nat → Nat → Bool
  | [], _, _, _ => true
  | (v, sz) :: rest, itemOff, b, pos =>
    if fn ⟨v, itemOff, pos⟩ then forEachItemAux fn rest (b + sz) (b + sz) (pos + 1)
    else false

/-- `Snapshot::for_each_item`: sequential scan; stops with `false` when `fn`
returns `false`, else `true` on exhaustion. -/
def for_each_item (s : Segment) (fn : WordItem → Bool) : Bool :=
  forEachItemAux fn s.entries 0 0 0

/-- The sequence of `WordItem` values passed to `fn` by a full
`for_each_item` scan (same loop with the continuation always `true`). -/
def forEachItemTraceAux : List (List Nat × Nat) → Nat → Nat → Nat → List WordItem
  | [], _, _, _ => []
  | (v, sz) :: rest, itemOff, b, pos =>
    ⟨v, itemOff, pos⟩ :: forEachItemTraceAux rest (b + sz) (b + sz) (pos + 1)

/-- Trace of one `for_each_item` scan over the whole segment. -/
def forEachItemTrace (s : Segment) : List WordItem :=
  forEachItemTraceAux s.entries 0 0 0

/-- Cursor chaining: starting from `offset`, repeatedly call `next_item` and
feed the returned `offset` field back, collecting word values, until
`next_item` returns `none` (`fuel` bounds the recursion). -/
def chainValues (s : Segment) : Nat → Nat → List (List Nat)
  | 0, _ => []
  | fuel + 1, offset =>
    match next_item s offset with
    | none => []
    | some it => it.value :: chainValues s fuel it.offset

/-- Modelled from the spec: the `succinct::RecSplitIndex` module (MphIndex,
spec section 4.2) is not part of the given sources.  `lookupFn` returns an
ordinal for any key, meaningful only for members; `ordinal_lookup` is the
ordinal-to-offset table read, modelled as a total function because the contract
leaves out-of-range ordinals unspecified (the C++ read does not trap). -/
structure RecSplitIndex where
  base_data_id : Nat
  ordinal_lookup : Nat → Nat
  lookupFn : List Nat → Nat
  mtime : Nat

/-- A block header as far as this layer observes it: the decoded number plus
the rest of the decoded content, kept opaque. -/
structure BlockHeader where
  number : Nat
  extra : List Nat
  deriving DecidableEq, Repr, Inhabited

/-- `HeaderSnapshot::decode_header`: hard error on an empty word, skip the
leading hash byte, RLP-decode (failure yields `none`), then hard error when
`header.number < block_from`.  The RLP header decoder itself is external to the
sources and passed in as `rlpDec`. -/
def decode_header (rlpDec : List Nat → Option BlockHeader) (block_from : Nat)
    (v : List Nat) : Except String (Option BlockHeader) :=
  if v.isEmpty then .error "HeaderSnapshot: hash first byte missing"
  else
    match rlpDec (v.drop 1) with
    | none => .ok none
    | some h =>
      if block_from ≤ h.number then .ok (some h)
      else .error "HeaderSnapshot: number less than block_from"

/-- `HeaderSnapshot::next_header`: one-shot decode at `offset`. -/
def next_header (s : Segment) (rlpDec : List Nat → Option BlockHeader)
    (block_from offset : Nat) : Except String (Option BlockHeader) :=
  match next_item s offset with
  | none => .ok none
  | some item => decode_header rlpDec block_from item.value

/-- `HeaderSnapshot::header_by_hash`: MPH lookup to an ordinal, ordinal lookup
to an offset, decode, then mandatory hash confirmation against `hashFn`
(modelling `BlockHeader::hash()`, external to the sources). -/
def header_by_hash (idx : Option RecSplitIndex) (s : Segment)
    (rlpDec : List Nat → Option BlockHeader) (hashFn : BlockHeader → List Nat)
    (block_from : Nat) (h : List Nat) : Except String (Option BlockHeader) :=
  match idx with
  | none => .ok none
  | some ix =>
    match next_header s rlpDec block_from (ix.ordinal_lookup (ix.lookupFn h)) with
    | .error e => .error e
    | .ok none => .ok none
    | .ok (some hdr) => if hashFn hdr ≠ h then .ok none else .ok (some hdr)

/-- `HeaderSnapshot::header_by_number`: `none` without an index or outside
`[block_from, block_to)`, else ordinal lookup at `n - base_data_id`. -/
def header_by_number (idx : Option RecSplitIndex) (s : Segment)
    (rlpDec : List Nat → Option BlockHeader) (block_from block_to n : Nat) :
    Except String (Option BlockHeader) :=
  match idx with
  | none => .ok none
  | some ix =>
    if n < block_from ∨ block_to ≤ n then .ok none
    else next_header s rlpDec block_from (ix.ordinal_lookup (sub64 n ix.base_data_id))

/-- `HeaderSnapshot::reopen_index` (and identically `BodySnapshot`): start from
a closed index, open the candidate file when present, and drop it again when it
is older than the segment.  The file system is modelled as the optional index
the candidate path holds. -/
def header_reopen_index (segment_mtime : Nat) (file : Option RecSplitIndex) :
    Option RecSplitIndex :=
  match file with
  | none => none
  | some ix => if ix.mtime < segment_mtime then none else some ix

/-- `BodySnapshot::reopen_index` has the same shape as the header one. -/
def body_reopen_index (segment_mtime : Nat) (file : Option RecSplitIndex) :
    Option RecSplitIndex :=
  match file with
  | none => none
  | some ix => if ix.mtime < segment_mtime then none else some ix

/-- The two fields of `db::detail::BlockBodyForStorage` this layer reads. -/
structure StoredBlockBody where
  base_txn_id : Nat
  txn_count : Nat
  deriving DecidableEq, Repr, Inhabited

/-- `BodySnapshot::next_body`: read one word, decode (failure yields `none`),
then unconditionally read `idx_body_number_->base_data_id()` for the ensure.
When no index is attached that read dereferences a null pointer; the undefined
behavior is modelled as the distinguished error below. -/
def next_body (idx : Option RecSplitIndex) (s : Segment)
    (dec : List Nat → Option StoredBlockBody) (offset : Nat) :
    Except String (Option StoredBlockBody) :=
  match next_item s offset with
  | none => .ok none
  | some item =>
    match dec item.value with
    | none => .ok none
    | some b =>
      match idx with
      | none => .error "undefined behavior: null body index dereference"
      | some ix =>
        if ix.base_data_id ≤ b.base_txn_id then .ok (some b)
        else .error "BodySnapshot: wrong base data ID for base txn ID"

/-- `BodySnapshot::body_by_number`: guards only on index presence, then ordinal
lookup at `n - base_data_id` with no range check on `n`. -/
def body_by_number (idx : Option RecSplitIndex) (s : Segment)
    (dec : List Nat → Option StoredBlockBody) (n : Nat) :
    Except String (Option StoredBlockBody) :=
  match idx with
  | none => .ok none
  | some ix => next_body idx s dec (ix.ordinal_lookup (sub64 n ix.base_data_id))

/-- Mutable capture state of the `compute_txs_amount` walker. -/
structure TxsAmountState where
  first_tx_id : Nat := 0
  last_tx_id : Nat := 0
  last_txs_amount : Nat := 0
  deriving DecidableEq, Repr, Inhabited

/-- Walker body of `BodySnapshot::compute_txs_amount`: with the body decoded
at `number = block_from + pos`, capture `first_tx_id` when the number equals
`block_from` and the last id and amount when it equals `block_to - 1`. -/
def txsCapture (block_from block_to : Nat) (b : StoredBlockBody) (pos : Nat)
    (st : TxsAmountState) : TxsAmountState :=
  let st1 :=
    if block_from + pos = block_from then { st with first_tx_id := b.base_txn_id }
    else st
  if block_from + pos = sub64 block_to 1 then
    { st1 with last_tx_id := b.base_txn_id, last_txs_amount := b.txn_count }
  else st1

/-- Scan loop of `BodySnapshot::compute_txs_amount`, built on `for_each_body`:
each word is decoded (failure is thrown by `success_or_throw`), its number is
`block_from + position`, and the walker captures the first and last ids. -/
def computeTxsAmountAux (block_from block_to : Nat)
    (dec : List Nat → Option StoredBlockBody) :
    List (List Nat × Nat) → Nat → TxsAmountState → Except String TxsAmountState
  | [], _, st => .ok st
  | (v, _) :: rest, pos, st =>
    match dec v with
    | none => .error "BodySnapshot: body decoding error"
    | some b =>
      computeTxsAmountAux block_from block_to dec rest (pos + 1)
        (txsCapture block_from block_to b pos st)

/-- `BodySnapshot::compute_txs_amount`: run the capturing scan, throw when both
captured ids are zero, else return
`(first_tx_id, last_tx_id + last_txs_amount - first_tx_id)` in `uint64_t`
arithmetic. -/
def compute_txs_amount (block_from block_to : Nat) (s : Segment)
    (dec : List Nat → Option StoredBlockBody) : Except String (Nat × Nat) :=
  match computeTxsAmountAux block_from block_to dec s.entries 0 {} with
  | .error e => .error e
  | .ok st =>
    if st.first_tx_id = 0 ∧ st.last_tx_id = 0 then
      .error "empty body snapshot"
    else
      .ok (st.first_tx_id, sub64 (add64 st.last_tx_id st.last_txs_amount) st.first_tx_id)

/-- Pure counterpart of the capturing scan once every word is known to decode;
used to factor the proofs about `compute_txs_amount`. -/
def txsAmountFold (block_from block_to : Nat) :
    List StoredBlockBody → Nat → TxsAmountState → TxsAmountState
  | [], _, st => st
  | b :: rest, pos, st =>
    txsAmountFold block_from block_to rest (pos + 1)
      (txsCapture block_from block_to b pos st)

/-- Sum of `txn_count` over a list of stored bodies. -/
def sumTxnCounts (bs : List StoredBlockBody) : Nat :=
  (bs.map StoredBlockBody.txn_count).sum

/-- A transaction as far as this layer observes it: the optional `from` field
(written `sender` here because `from` is reserved in Lean) and the rest of the
decoded content, kept opaque. -/
structure Transaction where
  sender : Option (List Nat) := none
  content : List Nat := []
  deriving DecidableEq, Repr, Inhabited

/-- Result of `rlp::decode_transaction_header_and_type` as used by the range
scans: the payload length from the RLP header and whether the envelope is a
legacy (untyped) transaction. -/
structure RlpEnvelope where
  payload_length : Nat
  is_legacy : Bool
  deriving DecidableEq, Repr, Inhabited

/-- `TransactionSnapshot::decode_txn`: hard error when the word is shorter than
1 hash byte + 20 sender bytes; otherwise the sender slot is bytes `[1, 21)` and
the transaction RLP the remainder (decode failure yields `none`).  The RLP
transaction decoder is external and passed in as `decodePayload`; it fills every
field but `from`, which the source sets from the sender slot. -/
def decode_txn (decodePayload : List Nat → Option Transaction) (v : List Nat) :
    Except String (Option Transaction) :=
  if 21 ≤ v.length then
    match decodePayload (v.drop 21) with
    | none => .ok none
    | some tx => .ok (some { tx with sender := some ((v.drop 1).take 20) })
  else .error "TransactionSnapshot: too short record"

/-- `TransactionSnapshot::next_txn`: one-shot decode at `offset`. -/
def next_txn (s : Segment) (decodePayload : List Nat → Option Transaction)
    (offset : Nat) : Except String (Option Transaction) :=
  match next_item s offset with
  | none => .ok none
  | some item => decode_txn decodePayload item.value

/-- `TransactionSnapshot::txn_by_hash`: MPH lookup, ordinal lookup, decode,
then mandatory hash confirmation against `txHashFn` (modelling
`Transaction::hash()`, external to the sources). -/
def txn_by_hash (idx : Option RecSplitIndex) (s : Segment)
    (decodePayload : List Nat → Option Transaction)
    (txHashFn : Transaction → List Nat) (h : List Nat) :
    Except String (Option Transaction) :=
  match idx with
  | none => .ok none
  | some ix =>
    match next_txn s decodePayload (ix.ordinal_lookup (ix.lookupFn h)) with
    | .error e => .error e
    | .ok none => .ok none
    | .ok (some tx) => if txHashFn tx ≠ h then .ok none else .ok (some tx)

/-- `TransactionSnapshot::txn_by_id`: `none` without an index, else ordinal
lookup at `txn_id - base_data_id` (wrapping `uint64_t` subtraction, with no
check that `txn_id` is at least `base_data_id`). -/
def txn_by_id (idx : Option RecSplitIndex) (s : Segment)
    (decodePayload : List Nat → Option Transaction) (txn_id : Nat) :
    Except String (Option Transaction) :=
  match idx with
  | none => .ok none
  | some ix => next_txn s decodePayload (ix.ordinal_lookup (sub64 txn_id ix.base_data_id))

/-- Loop of `TransactionSnapshot::for_each_txn`: for each of the remaining
records, read the item at `offset` (hard error when missing), require at least
21 bytes (hard error otherwise), split off the sender slot and the transaction
RLP, call the walker, stop early on `false`, and chase `item.offset`.  The
walker threads a state `acc` so the accumulating callers below can be expressed
in the same shape as their C++ lambdas capturing a vector. -/
def forEachTxnLoop {α : Type} (s : Segment)
    (walker : Nat → List Nat → List Nat → α → Except String (Bool × α)) :
    Nat → Nat → Nat → α → Except String α
  | 0, _, _, acc => .ok acc
  | remaining + 1, i, offset, acc =>
    match next_item s offset with
    | none => .error "TransactionSnapshot: record not found at offset"
    | some item =>
      if 21 ≤ item.value.length then
        match walker i ((item.value.drop 1).take 20) (item.value.drop 21) acc with
        | .error e => .error e
        | .ok (go_on, acc1) =>
          if go_on then forEachTxnLoop s walker remaining (i + 1) item.offset acc1
          else .ok acc1
      else .error "TransactionSnapshot: too short record"

/-- `TransactionSnapshot::for_each_txn`: return immediately without an index or
for a zero count, enforce `base_txn_id >= base_data_id` as a hard error, then
run the loop from the offset of ordinal `base_txn_id - base_data_id`. -/
def for_each_txn {α : Type} (idx : Option RecSplitIndex) (s : Segment)
    (base_txn_id txn_count : Nat)
    (walker : Nat → List Nat → List Nat → α → Except String (Bool × α))
    (init : α) : Except String α :=
  match idx with
  | none => .ok init
  | some ix =>
    if txn_count = 0 then .ok init
    else if ix.base_data_id ≤ base_txn_id then
      forEachTxnLoop s walker txn_count 0
        (ix.ordinal_lookup (sub64 base_txn_id ix.base_data_id)) init
    else .error "TransactionSnapshot: wrong base data ID for base txn ID"

/-- `TransactionSnapshot::txn_range`: drive `for_each_txn` with a walker that
decodes the envelope (hard error on failure), skips the type prefix for typed
transactions, decodes the payload (hard error on failure), optionally sets
`from` from the sender slot, then appends the transaction **and a spurious
default-constructed one** — the source performs `push_back(std::move(transaction))`
immediately followed by `emplace_back()`. -/
def txn_range (idx : Option RecSplitIndex) (s : Segment)
    (decodeEnv : List Nat → Option RlpEnvelope)
    (decodePayload : List Nat → Option Transaction)
    (base_txn_id txn_count : Nat) (read_senders : Bool) :
    Except String (List Transaction) :=
  for_each_txn idx s base_txn_id txn_count
    (fun _i senders_data tx_rlp acc =>
      match decodeEnv tx_rlp with
      | none => .error "TransactionSnapshot: cannot decode tx envelope"
      | some env =>
        let tx_payload_offset :=
          if env.is_legacy then 0 else tx_rlp.length - env.payload_length
        match decodePayload (tx_rlp.drop tx_payload_offset) with
        | none => .error "TransactionSnapshot: cannot decode tx payload"
        | some tx =>
          let tx1 := if read_senders then { tx with sender := some senders_data } else tx
          .ok (true, acc ++ [tx1, {}]))
    []

/-- `TransactionSnapshot::txn_rlp_range`: same scan, collecting the raw payload
bytes (envelope type prefix skipped) without decoding the payload. -/
def txn_rlp_range (idx : Option RecSplitIndex) (s : Segment)
    (decodeEnv : List Nat → Option RlpEnvelope) (base_txn_id txn_count : Nat) :
    Except String (List (List Nat)) :=
  for_each_txn idx s base_txn_id txn_count
    (fun _i _senders_data tx_rlp acc =>
      match decodeEnv tx_rlp with
      | none => .error "TransactionSnapshot: cannot decode tx envelope"
      | some env =>
        let tx_payload_offset :=
          if env.is_legacy then 0 else tx_rlp.length - env.payload_length
        .ok (true, acc ++ [tx_rlp.drop tx_payload_offset]))
    []

/-- `TransactionSnapshot::reopen_index`: `close_index` resets **both** indices;
then the tx-hash index file is opened and dropped via `close_index` (both
slots) when stale; then the transactions2block index file likewise.  The file
system is modelled as the optional contents of the two candidate paths; the
result is the pair (tx-hash index, transactions2block index) left attached. -/
def txn_reopen_index (segment_mtime : Nat)
    (txHashFile tx2BlockFile : Option RecSplitIndex) :
    Option RecSplitIndex × Option RecSplitIndex :=
  let st0 : Option RecSplitIndex × Option RecSplitIndex := (none, none)
  let st1 :=
    match txHashFile with
    | none => st0
    | some f => if f.mtime < segment_mtime then (none, none) else (some f, st0.2)
  let st2 :=
    match tx2BlockFile with
    | none => st1
    | some g => if g.mtime < segment_mtime then (none, none) else (st1.1, some g)
  st2

/-! Concrete model instances used to instantiate theorems with hypotheses and
to exhibit concrete behavior of the translated functions. -/

/-- A one-word header segment: word `[9, 1]` (hash byte 9, RLP byte 1),
occupying 2 compressed bytes. -/
def cSegH : Segment := ⟨[([9, 1], 2)]⟩

/-- Concrete RLP header decoder: any byte list decodes to number 0 with the
bytes kept as content. -/
def cDecH : List Nat → Option BlockHeader := fun v => some ⟨0, v⟩

/-- Concrete header hash function: the content bytes. -/
def cHashH : BlockHeader → List Nat := fun hd => hd.extra

/-- Concrete header index: everything maps to ordinal 0 / offset 0. -/
def cIdxH : RecSplitIndex := ⟨0, fun _ => 0, fun _ => 0, 5⟩

/-- A one-word body segment: word `[8]` occupying 1 compressed byte. -/
def cSegB : Segment := ⟨[([8], 1)]⟩

/-- Concrete body decoder: every word decodes to base id 5, count 2. -/
def cDecB : List Nat → Option StoredBlockBody := fun _ => some ⟨5, 2⟩

/-- Concrete body index with base id 0; every ordinal maps to offset 0. -/
def cIdxB : RecSplitIndex := ⟨0, fun _ => 0, fun _ => 0, 5⟩

/-- A one-word transaction segment: hash byte 0, sender bytes twenty 7s, one
RLP byte 42; the word occupies 30 compressed bytes. -/
def cSegT : Segment := ⟨[(0 :: (List.replicate 20 7 ++ [42]), 30)]⟩

/-- Concrete transaction index with base id 0. -/
def cIdxT : RecSplitIndex := ⟨0, fun _ => 0, fun _ => 0, 5⟩

/-- Concrete transaction index whose base id 100 exceeds small queried ids. -/
def cIdx6 : RecSplitIndex := ⟨100, fun _ => 0, fun _ => 0, 5⟩

/-- Concrete body index whose base id 7 exceeds the decoded base id 5. -/
def cIdx6b : RecSplitIndex := ⟨7, fun _ => 0, fun _ => 0, 5⟩

/-- Concrete envelope decoder: legacy envelope covering the whole input. -/
def cEnvC : List Nat → Option RlpEnvelope := fun v => some ⟨v.length, true⟩

/-- Concrete transaction payload decoder: keeps the bytes, no sender. -/
def decodePayloadC : List Nat → Option Transaction := fun v => some ⟨none, v⟩

/-- Concrete transaction hash function: the content bytes. -/
def cTxHashC : Transaction → List Nat := fun tx => tx.content

/-- A two-word segment with word sizes 3 and 4, so the words start at offsets
0 and 3 and the end is offset 7. -/
def cSeg4 : Segment := ⟨[([1], 3), ([2], 4)]⟩

/-- A concrete continuation for the scan: continue while at position 0. -/
def cFn4 : WordItem → Bool := fun it => decide (it.position = 0)

/-- Trivial transaction-scan walker threading a unit state. -/
def cWalkU : Nat → List Nat → List Nat → Unit → Except String (Bool × Unit) :=
  fun _ _ _ u => .ok (true, u)

/-- Two-body segment for `compute_txs_amount`: words `[0]` and `[1]`. -/
def w5Seg : Segment := ⟨[([0], 1), ([1], 1)]⟩

/-- Decoder for `w5Seg`: contiguous bodies (10, 1) then (11, 2). -/
def w5Dec : List Nat → Option StoredBlockBody :=
  fun v => if v = [0] then some ⟨10, 1⟩ else some ⟨11, 2⟩

/-- One-body segment whose only body has base id 0: the scan yields a record
yet both captured ids are zero. -/
def cSeg5a : Segment := ⟨[([0], 1)]⟩

/-- Decoder for `cSeg5a`: base id 0, count 3. -/
def cDec5a : List Nat → Option StoredBlockBody := fun _ => some ⟨0, 3⟩

/-- Two-body segment with non-contiguous base ids 10 and 100. -/
def cSeg5b : Segment := ⟨[([0], 1), ([1], 1)]⟩

/-- Decoder for `cSeg5b`: bodies (10, 1) then (100, 2). -/
def cDec5b : List Nat → Option StoredBlockBody :=
  fun v => if v = [0] then some ⟨10, 1⟩ else some ⟨100, 2⟩

/-- Stale index file: modification time 0. -/
def cIdxStale : RecSplitIndex := ⟨0, fun _ => 0, fun _ => 0, 0⟩

/-- Fresh index file: modification time 2. -/
def cIdxFresh : RecSplitIndex := ⟨0, fun _ => 0, fun _ => 0, 2⟩

/-! Helper lemmas about the scan loops. -/

theorem forEachItemAux_eq_all (fn : WordItem → Bool) :
    ∀ (es : List (List Nat × Nat)) (a b p : Nat),
      forEachItemAux fn es a b p = (forEachItemTraceAux es a b p).all fn := by
  intro es
  induction es with
  | nil => intro a b p; rfl
  | cons e rest ih =>
    intro a b p
    obtain ⟨v, sz⟩ := e
    simp only [forEachItemAux, forEachItemTraceAux, List.all_cons]
    by_cases h : fn ⟨v, a, p⟩
    · simp [h, ih]
    · simp [h]

theorem forEachItemTraceAux_length :
    ∀ (es : List (List Nat × Nat)) (a b p : Nat),
      (forEachItemTraceAux es a b p).length = es.length := by
  intro es
  induction es with
  | nil => intro a b p; rfl
  | cons e rest ih =>
    intro a b p
    obtain ⟨v, sz⟩ := e
    simp [forEachItemTraceAux, ih]

theorem forEachItemTraceAux_values :
    ∀ (es : List (List Nat × Nat)) (a b p : Nat),
      (forEachItemTraceAux es a b p).map WordItem.value = es.map Prod.fst := by
  intro es
  induction es with
  | nil => intro a b p; rfl
  | cons e rest ih =>
    intro a b p
    obtain ⟨v, sz⟩ := e
    simp [forEachItemTraceAux, ih]

theorem forEachItemTraceAux_get? :
    ∀ (es : List (List Nat × Nat)) (b p i : Nat) (h : i < es.length),
      (forEachItemTraceAux es b b p).get? i =
        some ⟨(es.get ⟨i, h⟩).1, b + sizeSum (es.take i), p + i⟩ := by
  intro es
  induction es with
  | nil => intro b p i h; exact absurd h (Nat.not_lt_zero i)
  | cons e rest ih =>
    intro b p i h
    obtain ⟨v, sz⟩ := e
    cases i with
    | zero => simp [forEachItemTraceAux, sizeSum]
    | succ j =>
      have hj : j < rest.length := Nat.lt_of_succ_lt_succ h
      simp only [forEachItemTraceAux, List.get?_cons_succ]
      rw [ih (b + sz) (p + 1) j hj]
      simp [sizeSum, Nat.add_assoc, Nat.add_comm 1 j]

theorem sizeSum_append (a b : List (List Nat × Nat)) :
    sizeSum (a ++ b) = sizeSum a + sizeSum b := by
  simp [sizeSum]

theorem lookupWord_at_start :
    ∀ (es₁ : List (List Nat × Nat)) (e : List Nat × Nat)
      (rest : List (List Nat × Nat)) (b : Nat),
      (∀ p ∈ es₁, 0 < p.2) →
      lookupWord (es₁ ++ e :: rest) b (b + sizeSum es₁) =
        some (e.1, b + sizeSum es₁ + e.2) := by
  intro es₁
  induction es₁ with
  | nil =>
    intro e rest b _
    obtain ⟨v, sz⟩ := e
    simp [lookupWord, sizeSum]
  | cons a es ih =>
    intro e rest b hpos
    obtain ⟨v, sz⟩ := a
    have hsz : 0 < sz := hpos (v, sz) (List.mem_cons_self _ _)
    have hne : b + sizeSum ((v, sz) :: es) ≠ b := by
      simp only [sizeSum, List.map_cons, List.sum_cons]
      omega
    have hrec := ih e rest (b + sz) (fun p hp => hpos p (List.mem_cons_of_mem _ hp))
    simp only [List.cons_append, lookupWord, if_neg hne]
    have harith : b + sizeSum ((v, sz) :: es) = b + sz + sizeSum es := by
      simp only [sizeSum, List.map_cons, List.sum_cons]
      omega
    rw [harith]
    exact hrec

theorem next_item_at_start (s : Segment) (es₁ : List (List Nat × Nat))
    (e : List Nat × Nat) (rest : List (List Nat × Nat))
    (hs : s.entries = es₁ ++ e :: rest) (hpos : ∀ p ∈ s.entries, 0 < p.2) :
    next_item s (sizeSum es₁) = some ⟨e.1, sizeSum es₁ + e.2, 0⟩ := by
  have hpos₁ : ∀ p ∈ es₁, 0 < p.2 := by
    intro p hp
    exact hpos p (by rw [hs]; exact List.mem_append_left _ hp)
  have hepos : 0 < e.2 := hpos e (by rw [hs]; exact List.mem_append_right _ (List.mem_cons_self _ _))
  have htot : totalSize s = sizeSum es₁ + e.2 + sizeSum rest := by
    rw [totalSize, hs, sizeSum_append]
    simp only [sizeSum, List.map_cons, List.sum_cons]
    omega
  have hlt : sizeSum es₁ < totalSize s := by omega
  have hlk := lookupWord_at_start es₁ e rest 0 hpos₁
  simp only [Nat.zero_add] at hlk
  simp only [next_item, if_pos hlt, hs, hlk]

theorem chainValues_from (s : Segment) (hpos : ∀ p ∈ s.entries, 0 < p.2) :
    ∀ (es₂ es₁ : List (List Nat × Nat)) (fuel : Nat),
      s.entries = es₁ ++ es₂ → es₂.length ≤ fuel →
      chainValues s fuel (sizeSum es₁) = es₂.map Prod.fst := by
  intro es₂
  induction es₂ with
  | nil =>
    intro es₁ fuel hs _
    have htot : sizeSum es₁ = totalSize s := by
      rw [totalSize, hs, List.append_nil]
    cases fuel with
    | zero => rfl
    | succ f =>
      have hnone : next_item s (sizeSum es₁) = none := by
        rw [next_item, htot, if_neg (lt_irrefl _)]
      simp [chainValues, hnone]
  | cons e rest ih =>
    intro es₁ fuel hs hfuel
    cases fuel with
    | zero => exact absurd hfuel (by simp)
    | succ f =>
      have hni := next_item_at_start s es₁ e rest hs hpos
      have hs2 : s.entries = (es₁ ++ [e]) ++ rest := by
        rw [hs, List.append_assoc]; rfl
      have hsum : sizeSum (es₁ ++ [e]) = sizeSum es₁ + e.2 := by
        rw [sizeSum_append]
        simp [sizeSum]
      have hrec := ih (es₁ ++ [e]) f hs2 (by
        have := Nat.le_of_succ_le_succ hfuel
        simpa using this)
      rw [hsum] at hrec
      simp [chainValues, hni, hrec]

/-! Helper lemmas for `compute_txs_amount`. -/

theorem txsAmountFold_nil (bf bt pos : Nat) (st : TxsAmountState) :
    txsAmountFold bf bt [] pos st = st := rfl

theorem txsAmountFold_cons (bf bt pos : Nat) (b : StoredBlockBody)
    (rest : List StoredBlockBody) (st : TxsAmountState) :
    txsAmountFold bf bt (b :: rest) pos st =
      txsAmountFold bf bt rest (pos + 1) (txsCapture bf bt b pos st) := rfl

theorem txsCapture_first_of_eq (bf bt pos : Nat) (b : StoredBlockBody)
    (st : TxsAmountState) (h : bf + pos = bf) :
    (txsCapture bf bt b pos st).first_tx_id = b.base_txn_id := by
  unfold txsCapture
  rw [if_pos h]
  by_cases h2 : bf + pos = sub64 bt 1
  · rw [if_pos h2]
  · rw [if_neg h2]

theorem txsCapture_first_of_ne (bf bt pos : Nat) (b : StoredBlockBody)
    (st : TxsAmountState) (h : bf + pos ≠ bf) :
    (txsCapture bf bt b pos st).first_tx_id = st.first_tx_id := by
  unfold txsCapture
  rw [if_neg h]
  by_cases h2 : bf + pos = sub64 bt 1
  · rw [if_pos h2]
  · rw [if_neg h2]

theorem txsCapture_last_of_eq (bf bt pos : Nat) (b : StoredBlockBody)
    (st : TxsAmountState) (h : bf + pos = sub64 bt 1) :
    (txsCapture bf bt b pos st).last_tx_id = b.base_txn_id ∧
      (txsCapture bf bt b pos st).last_txs_amount = b.txn_count := by
  unfold txsCapture
  by_cases h1 : bf + pos = bf
  · rw [if_pos h1, if_pos h]
    exact ⟨rfl, rfl⟩
  · rw [if_neg h1, if_pos h]
    exact ⟨rfl, rfl⟩

theorem computeTxsAmountAux_eq_fold (bf bt : Nat)
    (dec : List Nat → Option StoredBlockBody) :
    ∀ (es : List (List Nat × Nat)) (bodies : List StoredBlockBody)
      (pos : Nat) (st : TxsAmountState),
      es.map (fun e => dec e.1) = bodies.map some →
      computeTxsAmountAux bf bt dec es pos st =
        .ok (txsAmountFold bf bt bodies pos st) := by
  intro es
  induction es with
  | nil =>
    intro bodies pos st hmap
    have : bodies = [] := by
      cases bodies with
      | nil => rfl
      | cons b bs => simp at hmap
    subst this
    rfl
  | cons e rest ih =>
    intro bodies pos st hmap
    cases bodies with
    | nil => simp at hmap
    | cons b bs =>
      simp only [List.map_cons, List.cons_eq_cons] at hmap
      obtain ⟨hdec, hrest⟩ := hmap
      obtain ⟨v, sz⟩ := e
      rw [txsAmountFold_cons]
      show computeTxsAmountAux bf bt dec ((v, sz) :: rest) pos st = _
      rw [computeTxsAmountAux]
      simp only [hdec]
      exact ih bs (pos + 1) _ hrest

theorem txsAmountFold_first_of_pos (bf bt : Nat) :
    ∀ (bodies : List StoredBlockBody) (pos : Nat) (st : TxsAmountState),
      1 ≤ pos →
      (txsAmountFold bf bt bodies pos st).first_tx_id = st.first_tx_id := by
  intro bodies
  induction bodies with
  | nil => intro pos st _; rfl
  | cons b bs ih =>
    intro pos st hpos
    have hne : bf + pos ≠ bf := by omega
    rw [txsAmountFold_cons, ih (pos + 1) _ (by omega)]
    exact txsCapture_first_of_ne bf bt pos b st hne

theorem txsAmountFold_last_capture (bf bt : Nat) :
    ∀ (bodies : List StoredBlockBody) (pos : Nat) (st : TxsAmountState)
      (lb : StoredBlockBody),
      bodies.getLast? = some lb →
      bf + pos + bodies.length = sub64 bt 1 + 1 →
      (txsAmountFold bf bt bodies pos st).last_tx_id = lb.base_txn_id ∧
        (txsAmountFold bf bt bodies pos st).last_txs_amount = lb.txn_count := by
  intro bodies
  induction bodies with
  | nil => intro pos st lb h _; simp at h
  | cons b bs ih =>
    intro pos st lb hlast hlen
    cases bs with
    | nil =>
      simp only [List.getLast?_singleton, Option.some_inj] at hlast
      subst hlast
      have hhit : bf + pos = sub64 bt 1 := by
        simp only [List.length_singleton] at hlen
        omega
      rw [txsAmountFold_cons, txsAmountFold_nil]
      exact txsCapture_last_of_eq bf bt pos b st hhit
    | cons b2 bs2 =>
      have hlast2 : (b2 :: bs2).getLast? = some lb := by
        rwa [List.getLast?_cons_cons] at hlast
      have hlen2 : bf + (pos + 1) + (b2 :: bs2).length = sub64 bt 1 + 1 := by
        simp only [List.length_cons] at hlen ⊢
        omega
      rw [txsAmountFold_cons]
      exact ih (pos + 1) _ lb hlast2 hlen2

theorem txsAmountFold_first_capture (bf bt : Nat) (b : StoredBlockBody)
    (bs : List StoredBlockBody) (st : TxsAmountState) :
    (txsAmountFold bf bt (b :: bs) 0 st).first_tx_id = b.base_txn_id := by
  rw [txsAmountFold_cons, txsAmountFold_first_of_pos bf bt bs 1 _ (by omega)]
  exact txsCapture_first_of_eq bf bt 0 b st (by omega)

theorem chain_getLast_sum :
    ∀ (bodies : List StoredBlockBody) (hb lb : StoredBlockBody),
      List.Chain' (fun a c => c.base_txn_id = a.base_txn_id + a.txn_count) bodies →
      bodies.head? = some hb → bodies.getLast? = some lb →
      lb.base_txn_id + lb.txn_count = hb.base_txn_id + sumTxnCounts bodies := by
  intro bodies
  induction bodies with
  | nil => intro hb lb _ h; simp at h
  | cons b bs ih =>
    intro hb lb hchain hhead hlast
    simp only [List.head?_cons, Option.some_inj] at hhead
    subst hhead
    cases bs with
    | nil =>
      simp only [List.getLast?_singleton, Option.some_inj] at hlast
      subst hlast
      simp [sumTxnCounts]
    | cons b2 bs2 =>
      rw [List.chain'_cons] at hchain
      obtain ⟨hstep, hchain2⟩ := hchain
      have hlast2 : (b2 :: bs2).getLast? = some lb := by
        rwa [List.getLast?_cons_cons] at hlast
      have := ih b2 lb hchain2 (by simp) hlast2
      simp only [sumTxnCounts, List.map_cons, List.sum_cons] at this ⊢
      omega

theorem sub64_add64_cancel (last amount first total : Nat)
    (hsum : last + amount = first + total) (hbound : first + total < 2 ^ 64) :
    sub64 (add64 last amount) first = total := by
  have hK : (2 : Nat) ^ 64 = 18446744073709551616 := by norm_num
  simp only [sub64, add64]
  rw [hK] at hbound ⊢
  omega

theorem sub64_small (a : Nat) (h0 : 0 < a) (h : a < 2 ^ 64) : sub64 a 1 = a - 1 := by
  have hK : (2 : Nat) ^ 64 = 18446744073709551616 := by norm_num
  simp only [sub64]
  rw [hK] at h ⊢
  omega

/-! Claim theorems. -/

/-- Claim C4, counterexample: on the two-word segment with word sizes 3 and 4,
the first invocation of `fn` during `for_each_item` sees `offset = 0`, not the
next-word offset 3 (and the second sees 3, not 7): the source assigns
`item.offset = next_offset` only after `fn` has returned, so the claimed
"offset of the next word after the one just produced" is false. -/
theorem for_each_item_offset_cex :
    forEachItemTrace cSeg4 = [⟨[1], 0, 0⟩, ⟨[2], 3, 1⟩]
    ∧ wordStart cSeg4 1 = 3 ∧ wordStart cSeg4 2 = 7
    ∧ (forEachItemTrace cSeg4).headI.offset ≠ wordStart cSeg4 1 := by
  decide

/-- Claim C4 (amended): `for_each_item` invokes `fn` once per word with a
`WordItem` whose `offset` field is the byte offset at which the word just
produced starts (0 for the first word; the update to the next-word offset
happens only after `fn` returns), whose `position` is the zero-based index of
the word, and whose `value` is the decoded word; it returns `false` exactly
when some invocation of `fn` returns `false` (halting there), else `true` on
exhaustion. -/
theorem for_each_item_spec (s : Segment) (fn : WordItem → Bool) :
    (forEachItemTrace s).length = s.entries.length
    ∧ (∀ (i : Nat) (h : i < s.entries.length),
        (forEachItemTrace s).get? i =
          some ⟨(s.entries.get ⟨i, h⟩).1, wordStart s i, i⟩)
    ∧ for_each_item s fn = (forEachItemTrace s).all fn := by
  refine ⟨forEachItemTraceAux_length s.entries 0 0 0, ?_,
    forEachItemAux_eq_all fn s.entries 0 0 0⟩
  intro i h
  have := forEachItemTraceAux_get? s.entries 0 0 i h
  simpa [forEachItemTrace, wordStart] using this

/-- Claim C4, witness: the amended statement instantiated on the concrete
two-word segment. -/
theorem for_each_item_spec_witness :
    (forEachItemTrace cSeg4).length = cSeg4.entries.length
    ∧ (forEachItemTrace cSeg4).get? 0 =
        some ⟨(cSeg4.entries.get ⟨0, by decide⟩).1, wordStart cSeg4 0, 0⟩
    ∧ for_each_item cSeg4 cFn4 = (forEachItemTrace cSeg4).all cFn4 := by
  obtain ⟨h1, h2, h3⟩ := for_each_item_spec cSeg4 cFn4
  exact ⟨h1, h2 0 (by decide), h3⟩

/-- Claim C8: starting at offset 0 and chaining `next_item` through the
returned `offset` field yields exactly the word values of one `for_each_item`
scan, in the same order, for every segment whose words occupy at least one
compressed byte each. -/
theorem cursor_chaining_eq_scan (s : Segment) (hpos : ∀ p ∈ s.entries, 0 < p.2) :
    chainValues s s.entries.length 0 = (forEachItemTrace s).map WordItem.value := by
  have h1 : chainValues s s.entries.length (sizeSum []) = s.entries.map Prod.fst :=
    chainValues_from s hpos s.entries [] s.entries.length rfl (le_refl _)
  have h2 : (forEachItemTrace s).map WordItem.value = s.entries.map Prod.fst :=
    forEachItemTraceAux_values s.entries 0 0 0
  simpa [sizeSum] using h1.trans h2.symm

/-- Claim C8, witness: cursor chaining on the concrete two-word segment. -/
theorem cursor_chaining_eq_scan_witness :
    (∀ p ∈ cSeg4.entries, 0 < p.2)
    ∧ chainValues cSeg4 cSeg4.entries.length 0 =
        (forEachItemTrace cSeg4).map WordItem.value :=
  ⟨by decide, cursor_chaining_eq_scan cSeg4 (by decide)⟩

/-- Claim C10: `next_body` unconditionally reads
`idx_body_number_->base_data_id()` after a successful decode, so without an
attached body index the call dereferences a null pointer (modelled as the
distinguished undefined-behavior error) whenever the record at the offset
decodes; `body_by_number`, by contrast, guards on index presence and returns
`none` without ever reaching `next_body`. -/
theorem next_body_null_index (s : Segment)
    (dec : List Nat → Option StoredBlockBody) (offset n : Nat) :
    (∀ item b, next_item s offset = some item → dec item.value = some b →
        next_body none s dec offset =
          .error "undefined behavior: null body index dereference")
    ∧ body_by_number none s dec n = .ok none := by
  refine ⟨?_, rfl⟩
  intro item b hitem hdec
  simp only [next_body, hitem, hdec]

/-- Claim C10, witness: the concrete one-word body segment decodes at offset 0,
so the index-free `next_body` hits the modelled null dereference while
`body_by_number` returns `none`. -/
theorem next_body_null_index_witness :
    next_item cSegB 0 = some ⟨[8], 1, 0⟩
    ∧ cDecB [8] = some ⟨5, 2⟩
    ∧ next_body none cSegB cDecB 0 =
        .error "undefined behavior: null body index dereference"
    ∧ body_by_number none cSegB cDecB 3 = .ok none := by
  have h := next_body_null_index cSegB cDecB 0 3
  exact ⟨by decide, by decide, h.1 ⟨[8], 1, 0⟩ ⟨5, 2⟩ (by decide) rfl, h.2⟩

/-- Claim C2, counterexample: `body_by_number` performs no range check.  Both
concrete snapshots cover block range 0 to 1 (exclusive), and both indices have
base data id 0, so 1 is `to_block`: `header_by_number` returns `none` there as
claimed, but `body_by_number` computes the out-of-range ordinal 1, reads the
offset the modelled table yields (0), decodes the body at offset 0 and returns
it instead of `none`. -/
theorem body_by_number_out_of_range_cex :
    body_by_number (some cIdxB) cSegB cDecB 1 = .ok (some ⟨5, 2⟩)
    ∧ header_by_number (some cIdxH) cSegH cDecH 0 1 1 = .ok none :=
  ⟨rfl, rfl⟩

/-- Claim C2 (amended): `header_by_number n` returns `none` when no index is
attached or `n` is outside the block range, and otherwise decodes at offset
`ordinal_lookup (n - base_data_id)`; `body_by_number` returns `none` only when
no index is attached and otherwise follows the same ordinal computation for
every `n`, with no range check, so out-of-range block numbers are not
guaranteed to return `none`. -/
theorem by_number_lookup_spec (s : Segment)
    (rlpDec : List Nat → Option BlockHeader)
    (decB : List Nat → Option StoredBlockBody) (bf bt n : Nat) :
    header_by_number none s rlpDec bf bt n = .ok none
    ∧ (∀ ix, n < bf ∨ bt ≤ n → header_by_number (some ix) s rlpDec bf bt n = .ok none)
    ∧ (∀ ix, bf ≤ n → n < bt →
        header_by_number (some ix) s rlpDec bf bt n =
          next_header s rlpDec bf (ix.ordinal_lookup (sub64 n ix.base_data_id)))
    ∧ body_by_number none s decB n = .ok none
    ∧ (∀ ix, body_by_number (some ix) s decB n =
        next_body (some ix) s decB (ix.ordinal_lookup (sub64 n ix.base_data_id))) := by
  refine ⟨rfl, ?_, ?_, rfl, fun ix => rfl⟩
  · intro ix hcond
    simp only [header_by_number]
    rw [if_pos hcond]
  · intro ix h1 h2
    simp only [header_by_number]
    rw [if_neg (by omega : ¬(n < bf ∨ bt ≤ n))]

/-- Claim C2, witness: the amended statement instantiated on the concrete
header and body snapshots. -/
theorem by_number_lookup_spec_witness :
    header_by_number (some cIdxH) cSegH cDecH 0 1 0 =
      next_header cSegH cDecH 0 (cIdxH.ordinal_lookup (sub64 0 cIdxH.base_data_id))
    ∧ body_by_number (some cIdxB) cSegB cDecB 1 =
      next_body (some cIdxB) cSegB cDecB
        (cIdxB.ordinal_lookup (sub64 1 cIdxB.base_data_id))
    ∧ header_by_number (some cIdxH) cSegH cDecH 0 1 1 = .ok none := by
  have h1 := by_number_lookup_spec cSegH cDecH cDecB 0 1 0
  have h2 := by_number_lookup_spec cSegB cDecH cDecB 0 1 1
  have h3 := by_number_lookup_spec cSegH cDecH cDecB 0 1 1
  exact ⟨h1.2.2.1 cIdxH (by decide) (by decide),
    h2.2.2.2.2 cIdxB, h3.2.1 cIdxH (by decide)⟩

/-- Claim C3: whenever `header_by_hash` (resp. `txn_by_hash`) reports a record
for a queried hash, the record's recomputed hash equals the query: the lookup
compares the decoded record's hash and downgrades mismatches to `none`, so a
hash absent from the segment's key set is never a false positive. -/
theorem hash_confirmation (idx : Option RecSplitIndex) (s : Segment)
    (rlpDec : List Nat → Option BlockHeader) (hashFn : BlockHeader → List Nat)
    (bf : Nat) (dp : List Nat → Option Transaction)
    (txHashFn : Transaction → List Nat) (h : List Nat) :
    (∀ hdr, header_by_hash idx s rlpDec hashFn bf h = .ok (some hdr) →
      hashFn hdr = h)
    ∧ (∀ tx, txn_by_hash idx s dp txHashFn h = .ok (some tx) →
      txHashFn tx = h) := by
  constructor
  · intro hdr heq
    cases idx with
    | none => exact absurd heq (by simp [header_by_hash])
    | some ix =>
      simp only [header_by_hash] at heq
      split at heq
      · exact Except.noConfusion heq
      · injection heq with h2
        exact Option.noConfusion h2
      · split at heq
        · injection heq with h2
          exact Option.noConfusion h2
        · rename_i hne
          rw [not_not] at hne
          injection heq with h2
          injection h2 with h3
          rw [← h3]
          exact hne
  · intro tx heq
    cases idx with
    | none => exact absurd heq (by simp [txn_by_hash])
    | some ix =>
      simp only [txn_by_hash] at heq
      split at heq
      · exact Except.noConfusion heq
      · injection heq with h2
        exact Option.noConfusion h2
      · split at heq
        · injection heq with h2
          exact Option.noConfusion h2
        · rename_i hne
          rw [not_not] at hne
          injection heq with h2
          injection h2 with h3
          rw [← h3]
          exact hne

/-- Claim C3, witness: both hash lookups succeed on the concrete segments and
the theorem yields the hash equalities. -/
theorem hash_confirmation_witness :
    header_by_hash (some cIdxH) cSegH cDecH cHashH 0 [1] = .ok (some ⟨0, [1]⟩)
    ∧ cHashH ⟨0, [1]⟩ = [1]
    ∧ txn_by_hash (some cIdxT) cSegT decodePayloadC cTxHashC [42] =
        .ok (some ⟨some (List.replicate 20 7), [42]⟩)
    ∧ cTxHashC ⟨some (List.replicate 20 7), [42]⟩ = [42] := by
  have h1 := hash_confirmation (some cIdxH) cSegH cDecH cHashH 0
    decodePayloadC cTxHashC [1]
  have h2 := hash_confirmation (some cIdxT) cSegT cDecH cHashH 0
    decodePayloadC cTxHashC [42]
  exact ⟨rfl, h1.1 ⟨0, [1]⟩ rfl, rfl,
    h2.2 ⟨some (List.replicate 20 7), [42]⟩ rfl⟩

/-- Claim C6, counterexample: `txn_by_id` performs no base-data-id check.  With
an attached index whose `base_data_id` is 100, querying id 5 does not raise the
mismatched-index error: the ordinal wraps around modulo `2 ^ 64`, the modelled
offset table yields offset 0 and the record there is returned. -/
theorem txn_by_id_no_base_check_cex :
    txn_by_id (some cIdx6) cSegT decodePayloadC 5 =
      .ok (some ⟨some (List.replicate 20 7), [42]⟩)
    ∧ 5 < cIdx6.base_data_id :=
  ⟨rfl, by decide⟩

/-- Claim C6 (amended): `next_body` raises a hard error when the decoded
`base_txn_id` is below the index's `base_data_id`, and `for_each_txn` (hence
`txn_range`) raises a hard error when the queried `base_txn_id` is below
`base_data_id`; `txn_by_id` performs no such check and simply looks up the
wrapped ordinal `txn_id - base_data_id`. -/
theorem base_data_id_checks :
    (∀ (ix : RecSplitIndex) (s : Segment)
        (dec : List Nat → Option StoredBlockBody) (offset : Nat)
        (item : WordItem) (b : StoredBlockBody),
        next_item s offset = some item → dec item.value = some b →
        b.base_txn_id < ix.base_data_id →
        next_body (some ix) s dec offset =
          .error "BodySnapshot: wrong base data ID for base txn ID")
    ∧ (∀ (α : Type) (ix : RecSplitIndex) (s : Segment)
        (walker : Nat → List Nat → List Nat → α → Except String (Bool × α))
        (init : α) (base count : Nat),
        0 < count → base < ix.base_data_id →
        for_each_txn (some ix) s base count walker init =
          .error "TransactionSnapshot: wrong base data ID for base txn ID")
    ∧ (∀ (ix : RecSplitIndex) (s : Segment)
        (de : List Nat → Option RlpEnvelope) (dp : List Nat → Option Transaction)
        (base count : Nat) (rs : Bool),
        0 < count → base < ix.base_data_id →
        txn_range (some ix) s de dp base count rs =
          .error "TransactionSnapshot: wrong base data ID for base txn ID")
    ∧ (∀ (ix : RecSplitIndex) (s : Segment)
        (dp : List Nat → Option Transaction) (tid : Nat),
        txn_by_id (some ix) s dp tid =
          next_txn s dp (ix.ordinal_lookup (sub64 tid ix.base_data_id))) := by
  have hfe : ∀ (α : Type) (ix : RecSplitIndex) (s : Segment)
      (walker : Nat → List Nat → List Nat → α → Except String (Bool × α))
      (init : α) (base count : Nat),
      0 < count → base < ix.base_data_id →
      for_each_txn (some ix) s base count walker init =
        .error "TransactionSnapshot: wrong base data ID for base txn ID" := by
    intro α ix s walker init base count hc hlt
    simp only [for_each_txn]
    rw [if_neg (by omega : ¬ count = 0), if_neg (by omega : ¬ ix.base_data_id ≤ base)]
  refine ⟨?_, hfe, ?_, fun ix s dp tid => rfl⟩
  · intro ix s dec offset item b hitem hdec hlt
    simp only [next_body, hitem, hdec]
    rw [if_neg (by omega : ¬ ix.base_data_id ≤ b.base_txn_id)]
  · intro ix s de dp base count rs hc hlt
    exact hfe (List Transaction) ix s _ [] base count hc hlt

/-- Claim C6, witness: the amended statement instantiated on concrete
snapshots (body base id 5 against index base 7; transaction base id 5 against
index base 100). -/
theorem base_data_id_checks_witness :
    next_item cSegB 0 = some ⟨[8], 1, 0⟩
    ∧ cDecB [8] = some ⟨5, 2⟩
    ∧ (5 : Nat) < cIdx6b.base_data_id
    ∧ next_body (some cIdx6b) cSegB cDecB 0 =
        .error "BodySnapshot: wrong base data ID for base txn ID"
    ∧ for_each_txn (some cIdx6) cSegT 5 1 cWalkU () =
        .error "TransactionSnapshot: wrong base data ID for base txn ID"
    ∧ txn_range (some cIdx6) cSegT cEnvC decodePayloadC 5 1 true =
        .error "TransactionSnapshot: wrong base data ID for base txn ID"
    ∧ txn_by_id (some cIdx6b) cSegB decodePayloadC 9 =
        next_txn cSegB decodePayloadC
          (cIdx6b.ordinal_lookup (sub64 9 cIdx6b.base_data_id)) := by
  have h := base_data_id_checks
  exact ⟨by decide, by decide, by decide,
    h.1 cIdx6b cSegB cDecB 0 ⟨[8], 1, 0⟩ ⟨5, 2⟩ (by decide) rfl (by decide),
    h.2.1 Unit cIdx6 cSegT cWalkU () 5 1 (by decide) (by decide),
    h.2.2.1 cIdx6 cSegT cEnvC decodePayloadC 5 1 true (by decide) (by decide),
    h.2.2.2 cIdx6b cSegB decodePayloadC 9⟩

/-- Claim C1: the source appends a spurious default-constructed `Transaction`
after each decoded record (`push_back` immediately followed by
`emplace_back`), so `txn_range` over one well-formed record with
`txn_count = 1` returns two entries — the decoded transaction with `from` set
from the 20-byte sender slot, then an empty one — while `txn_rlp_range`
returns exactly one payload, as the spec intends for both. -/
theorem txn_range_spurious_entry :
    txn_range (some cIdxT) cSegT cEnvC decodePayloadC 0 1 true =
      .ok [⟨some (List.replicate 20 7), [42]⟩, ⟨none, []⟩]
    ∧ txn_rlp_range (some cIdxT) cSegT cEnvC 0 1 = .ok [[42]] :=
  ⟨rfl, rfl⟩

/-- Claim C7: a candidate index file strictly older than the segment is left
unattached by every `reopen_index` (header, body, and either transaction
slot); with no index attached every keyed lookup returns `none`, while the
sequential scan still delivers every word of the segment. -/
theorem stale_index_segment_only (sm : Nat) (f : RecSplitIndex)
    (hstale : f.mtime < sm) (s : Segment)
    (rlpDec : List Nat → Option BlockHeader) (hashFn : BlockHeader → List Nat)
    (decB : List Nat → Option StoredBlockBody)
    (dp : List Nat → Option Transaction) (txHashFn : Transaction → List Nat)
    (bf bt n tid : Nat) (h : List Nat) :
    header_reopen_index sm (some f) = none
    ∧ body_reopen_index sm (some f) = none
    ∧ (∀ g, (txn_reopen_index sm (some f) g).1 = none)
    ∧ (∀ g, (txn_reopen_index sm g (some f)).2 = none)
    ∧ header_by_hash none s rlpDec hashFn bf h = .ok none
    ∧ header_by_number none s rlpDec bf bt n = .ok none
    ∧ body_by_number none s decB n = .ok none
    ∧ txn_by_hash none s dp txHashFn h = .ok none
    ∧ txn_by_id none s dp tid = .ok none
    ∧ (forEachItemTrace s).map WordItem.value = s.entries.map Prod.fst := by
  refine ⟨?_, ?_, ?_, ?_, rfl, rfl, rfl, rfl, rfl,
    forEachItemTraceAux_values s.entries 0 0 0⟩
  · simp only [header_reopen_index]
    rw [if_pos hstale]
  · simp only [body_reopen_index]
    rw [if_pos hstale]
  · intro g
    cases g with
    | none => simp [txn_reopen_index, hstale]
    | some g0 =>
      by_cases hg : g0.mtime < sm <;> simp [txn_reopen_index, hstale, hg]
  · intro g
    cases g with
    | none => simp [txn_reopen_index, hstale]
    | some g0 =>
      by_cases hg : g0.mtime < sm <;> simp [txn_reopen_index, hstale, hg]

/-- Claim C7, witness: a stale index file (mtime 0) against a segment of
mtime 1 stays unattached in every slot, and the lookups and scan behave as
stated on the concrete segments. -/
theorem stale_index_segment_only_witness :
    cIdxStale.mtime < 1
    ∧ header_reopen_index 1 (some cIdxStale) = none
    ∧ (txn_reopen_index 1 (some cIdxStale) (some cIdxFresh)).1 = none
    ∧ (txn_reopen_index 1 (some cIdxFresh) (some cIdxStale)).2 = none
    ∧ txn_by_id none cSegH decodePayloadC 3 = .ok none
    ∧ (forEachItemTrace cSegH).map WordItem.value = cSegH.entries.map Prod.fst := by
  have h := stale_index_segment_only 1 cIdxStale (by decide) cSegH cDecH cHashH
    cDecB decodePayloadC cTxHashC 0 1 0 3 [1]
  obtain ⟨a1, a2, a3, a4, _, _, _, _, a9, a10⟩ := h
  exact ⟨by decide, a1, a3 (some cIdxFresh), a4 (some cIdxFresh), a9, a10⟩

/-- Claim C9: the two transaction indices are coupled through the shared
`close_index`.  If the tx-hash file is fresh but the transactions2block file is
stale, `reopen_index` first attaches the tx-hash index and then detaches both,
so `txn_by_hash` and `txn_by_id` return `none`; conversely, with a stale
tx-hash file and a fresh transactions2block file the transactions2block index
ends up attached while the tx-hash index is not. -/
theorem txn_index_coupling (sm : Nat) (f g : RecSplitIndex)
    (hf : ¬ f.mtime < sm) (hg : g.mtime < sm) (s : Segment)
    (dp : List Nat → Option Transaction) (txHashFn : Transaction → List Nat)
    (h : List Nat) (tid : Nat) :
    txn_reopen_index sm (some f) (some g) = (none, none)
    ∧ txn_by_hash none s dp txHashFn h = .ok none
    ∧ txn_by_id none s dp tid = .ok none
    ∧ txn_reopen_index sm (some g) (some f) = (none, some f) := by
  refine ⟨?_, rfl, rfl, ?_⟩
  · simp [txn_reopen_index, hf, hg]
  · simp [txn_reopen_index, hf, hg]

/-- Claim C9, witness: concrete fresh (mtime 2) and stale (mtime 0) index
files against a segment of mtime 1. -/
theorem txn_index_coupling_witness :
    ¬ cIdxFresh.mtime < 1
    ∧ cIdxStale.mtime < 1
    ∧ txn_reopen_index 1 (some cIdxFresh) (some cIdxStale) = (none, none)
    ∧ txn_by_hash none cSegT decodePayloadC cTxHashC [42] = .ok none
    ∧ txn_by_id none cSegT decodePayloadC 3 = .ok none
    ∧ txn_reopen_index 1 (some cIdxStale) (some cIdxFresh) =
        (none, some cIdxFresh) := by
  have h := txn_index_coupling 1 cIdxFresh cIdxStale (by decide) (by decide)
    cSegT decodePayloadC cTxHashC [42] 3
  exact ⟨by decide, by decide, h.1, h.2.1, h.2.2.1, h.2.2.2⟩

/-- Claim C5, counterexample, two parts.  First, the Corrupt condition is not
"the scan yields no records": on a one-body snapshot over blocks 0 to 1 whose
body has `base_txn_id = 0`, the scan yields a record yet both captured ids are
zero and the call fails with the empty-snapshot error.  Second, the returned
second component is not the sum of `txn_count` in general: on two bodies with
non-contiguous base ids 10 and 100 the call returns 92 while the counts sum
to 3. -/
theorem compute_txs_amount_cex :
    compute_txs_amount 0 1 cSeg5a cDec5a = .error "empty body snapshot"
    ∧ cSeg5a.entries.length = 1
    ∧ compute_txs_amount 5 7 cSeg5b cDec5b = .ok (10, 92)
    ∧ sumTxnCounts [⟨10, 1⟩, ⟨100, 2⟩] = 3 :=
  ⟨rfl, rfl, rfl, rfl⟩

/-- Claim C5 (amended): for a body snapshot over `[bf, bt)` whose scan decodes
to the body list `bodies` (one per block, first body `b0`, last body `lb`),
`compute_txs_amount` fails with the Corrupt error exactly when the captured
first and last base transaction ids are both zero (which includes every scan
yielding no records), and otherwise returns
`(first_tx_id, last_tx_id + last_txs_amount - first_tx_id)`, which equals the
sum of `txn_count` over every body in the range whenever consecutive bodies
carry contiguous base transaction ids. -/
theorem compute_txs_amount_spec (bf bt : Nat) (s : Segment)
    (dec : List Nat → Option StoredBlockBody) (bodies : List StoredBlockBody)
    (b0 lb : StoredBlockBody)
    (hdec : s.entries.map (fun e => dec e.1) = bodies.map some)
    (hhead : bodies.head? = some b0) (hlast : bodies.getLast? = some lb)
    (hlen : bodies.length = bt - bf) (hbf : bf < bt) (hbt : bt < 2 ^ 64)
    (hchain : List.Chain'
      (fun a c => c.base_txn_id = a.base_txn_id + a.txn_count) bodies)
    (hbound : b0.base_txn_id + sumTxnCounts bodies < 2 ^ 64) :
    (compute_txs_amount bf bt s dec = .error "empty body snapshot"
        ↔ b0.base_txn_id = 0 ∧ lb.base_txn_id = 0)
    ∧ (¬ (b0.base_txn_id = 0 ∧ lb.base_txn_id = 0) →
        compute_txs_amount bf bt s dec =
          .ok (b0.base_txn_id, sumTxnCounts bodies)) := by
  obtain ⟨tail, rfl⟩ : ∃ tail, bodies = b0 :: tail := by
    cases bodies with
    | nil => simp at hhead
    | cons x xs =>
      simp only [List.head?_cons, Option.some_inj] at hhead
      exact ⟨xs, by rw [hhead]⟩
  have hfold := computeTxsAmountAux_eq_fold bf bt dec s.entries (b0 :: tail) 0 {} hdec
  set st := txsAmountFold bf bt (b0 :: tail) 0 {} with hst
  have hfirst : st.first_tx_id = b0.base_txn_id :=
    txsAmountFold_first_capture bf bt b0 tail {}
  have hT : sub64 bt 1 = bt - 1 := sub64_small bt (by omega) hbt
  have hlencond : bf + 0 + (b0 :: tail).length = sub64 bt 1 + 1 := by
    rw [hT]
    omega
  have hlastf := txsAmountFold_last_capture bf bt (b0 :: tail) 0 {} lb hlast hlencond
  have hcompute : compute_txs_amount bf bt s dec =
      (if st.first_tx_id = 0 ∧ st.last_tx_id = 0 then
        Except.error "empty body snapshot"
      else
        Except.ok (st.first_tx_id,
          sub64 (add64 st.last_tx_id st.last_txs_amount) st.first_tx_id)) := by
    simp only [compute_txs_amount, hfold]
  constructor
  · constructor
    · intro herr
      by_cases hcond : st.first_tx_id = 0 ∧ st.last_tx_id = 0
      · exact ⟨by rw [← hfirst]; exact hcond.1, by rw [← hlastf.1]; exact hcond.2⟩
      · rw [hcompute, if_neg hcond] at herr
        exact Except.noConfusion herr
    · intro hz
      have hcond : st.first_tx_id = 0 ∧ st.last_tx_id = 0 :=
        ⟨by rw [hfirst]; exact hz.1, by rw [hlastf.1]; exact hz.2⟩
      rw [hcompute, if_pos hcond]
  · intro hne
    have hcond : ¬ (st.first_tx_id = 0 ∧ st.last_tx_id = 0) := by
      rw [hfirst, hlastf.1]
      exact hne
    rw [hcompute, if_neg hcond, hfirst, hlastf.1, hlastf.2]
    have hsum := chain_getLast_sum (b0 :: tail) b0 lb hchain (by simp) hlast
    rw [sub64_add64_cancel lb.base_txn_id lb.txn_count b0.base_txn_id
      (sumTxnCounts (b0 :: tail)) hsum hbound]

/-- Claim C5, witness: on the contiguous two-body snapshot over blocks 5 to 7
(bodies (10, 1) and (11, 2)), `compute_txs_amount` returns the first id and the
total count. -/
theorem compute_txs_amount_spec_witness :
    compute_txs_amount 5 7 w5Seg w5Dec = .ok (10, 3) := by
  have h := compute_txs_amount_spec 5 7 w5Seg w5Dec [⟨10, 1⟩, ⟨11, 2⟩]
    ⟨10, 1⟩ ⟨11, 2⟩ rfl rfl rfl rfl (by decide) (by decide)
    (by rw [List.chain'_cons]; exact ⟨by decide, List.chain'_singleton _⟩)
    (by decide)
  exact h.2 (by decide)

end Silkworm
